import Mathlib

/-!
Verification development for the dosaku capability-binding core.

The central component is `Agent.learn` / `Agent.memorize` / sub-agent
bookkeeping from `src/dosaku/core/agent.py`, embedded shallowly below.
The Task Registry (`task_hub`), Module Registry (`module_manager`),
`Actor` base class and `ShortTermModule` are not part of the given
sources; where their behavior matters they are modelled from the spec
(sections 4.1, 4.2, 4.5), and each such definition says so in its doc
comment.

Python dictionaries are modelled as insertion-ordered association
lists with string keys; Python exceptions are modelled by operations
returning the (possibly mutated) state together with an optional
error, matching the in-place mutation semantics of the source.
Python class objects (one fresh `_Actor` class per `learn` call) are
modelled by a heap of "type attribute" tables indexed by a freshly
allocated numeric type id.
-/

/-- Association list with string keys, modelling a Python dict
(insertion ordered, first occurrence of a key is authoritative). -/
abbrev Dict (α : Type) := List (String × α)

/-- Dict lookup: value at the first occurrence of the key, if any. -/
def alookup {α : Type} : Dict α → String → Option α
  | [], _ => none
  | (k, v) :: t, key => if k = key then some v else alookup t key

/-- Dict write `d[k] = v`: replace the value at the first occurrence of
the key in place, else append the binding at the end, exactly as a
Python dict keeps insertion order on update. -/
def ainsert {α : Type} : Dict α → String → α → Dict α
  | [], key, v => [(key, v)]
  | (k, w) :: t, key, v => if k = key then (k, v) :: t else (k, w) :: ainsert t key v

/-- Dict deletion `del d[k]`: drop the bindings of the key. On the
unique-key states a Python dict can reach this is exactly `del`. -/
def aremove {α : Type} : Dict α → String → Dict α
  | [], _ => []
  | (k, v) :: t, key => if k = key then aremove t key else (k, v) :: aremove t key

/-- Keys of an association list, in order. -/
def akeys {α : Type} (l : Dict α) : List String := l.map Prod.fst

/-- Lookup in a numeric-keyed table (the heap of actor classes). -/
def nlookup {α : Type} : List (Nat × α) → Nat → Option α
  | [], _ => none
  | (k, v) :: t, key => if k = key then some v else nlookup t key

/-- True when the character list contains two consecutive underscores;
helper for the source's reserved-name test. -/
def hasDUChars : List Char → Bool
  | [] => false
  | a :: rest =>
    match rest with
    | [] => false
    | b :: _ => (a == '_' && b == '_') || hasDUChars rest

/-- The source's test `if '__' in module_attr.__name__:` from
`Agent.learn` (src/dosaku/core/agent.py line 137): whether a name
contains a double underscore anywhere. -/
def hasDoubleUnderscore (s : String) : Bool := hasDUChars s.toList

/-- A Python callable as observed by `Agent.learn`: it has a
definition-time name (`__name__`) and an identity. The identity field
distinguishes distinct callables that happen to share a `__name__`. -/
structure Callable where
  defName : String
  fnId : Nat
deriving DecidableEq, Repr

/-- The error kinds raised by the embedded operations, from the
exception classes used in src/dosaku/core/agent.py and the spec's
error catalog (spec section 7). `keyError`, `valueError`,
`indexError` and `missingAttrError` model the corresponding built-in
Python exceptions. -/
inductive Err where
  | moduleForTaskNotFound
  | servicePermissionRequired
  | executorPermissionRequired
  | keyError (key : String)
  | valueError
  | indexError
  | missingAttrError (attrName : String)
deriving DecidableEq, Repr

/-- Modelled from the spec: the Task Registry (`task_hub`, spec
section 4.1), whose source is not under src/. `tasks` maps a task
name to its ordered action-name list (the registry's `api`);
`registeredModules` maps a task name to the module names that
registered an implementation, in registration order. A task has an
entry in `registeredModules` only once a module registers it, so
`registered_modules(task)` is `none` (Python `None`) for a task no
module has registered. -/
structure TaskHub where
  tasks : Dict (List String)
  registeredModules : Dict (List String)
deriving DecidableEq, Repr

/-- Modelled from the spec: a module's registry-visible declaration
(spec sections 3 and 4.2): its permission requirements and its
attribute surface (attribute name to callable). -/
structure ModuleInfo where
  requiresServices : Bool
  requiresExecutors : Bool
  attrs : Dict Callable
deriving DecidableEq, Repr

/-- Modelled from the spec: the Module Registry (`module_manager`,
spec section 4.2), whose source is not under src/. `catalog` is the
set of declared modules; `cache` is the list of module names whose
instance is currently loaded (an instance's callables are those of
its catalog entry). -/
structure MM where
  catalog : Dict ModuleInfo
  cache : List String
deriving DecidableEq, Repr

/-- The per-(agent, task) Actor binding (spec section 3): its fresh
per-learn type id (the `_Actor` class created in `Agent.learn`) and
its instance-level attributes. Type-level attributes live in the
world's `typeTable` under `typeId`. -/
structure Actor where
  typeId : Nat
  instAttrs : Dict Callable
deriving DecidableEq, Repr

/-- Modelled from the spec: a ShortTermModule (spec section 4.5):
a name and an ordered action-name-to-callable mapping (`api()`). -/
structure Stm where
  name : String
  api : Dict Callable
deriving DecidableEq, Repr

/-- A value attached on an agent under a task name by `setattr`:
either the Actor created by `learn` or the ShortTermModule object
attached by `memorize` (attached by reference: the very value). -/
inductive Attachment where
  | actor (a : Actor)
  | stm (s : Stm)
deriving DecidableEq, Repr

/-- The state of one Agent (src/dosaku/core/agent.py `__init__`):
name, `_known_tasks`, `_memorized_tasks`, the two permission flags,
the attribute namespace written by `setattr`, and the owned
sub-agents. -/
inductive AgentState where
  | mk (name : String)
       (knownTasks : Dict (List String))
       (memorizedTasks : Dict (List String))
       (allowServices : Bool)
       (allowExecutors : Bool)
       (attached : Dict Attachment)
       (subagents : List (String × AgentState))

def AgentState.name : AgentState → String
  | .mk n _ _ _ _ _ _ => n

def AgentState.knownTasks : AgentState → Dict (List String)
  | .mk _ k _ _ _ _ _ => k

def AgentState.memorizedTasks : AgentState → Dict (List String)
  | .mk _ _ m _ _ _ _ => m

def AgentState.allowServices : AgentState → Bool
  | .mk _ _ _ s _ _ _ => s

def AgentState.allowExecutors : AgentState → Bool
  | .mk _ _ _ _ e _ _ => e

def AgentState.attached : AgentState → Dict Attachment
  | .mk _ _ _ _ _ a _ => a

def AgentState.subagents : AgentState → List (String × AgentState)
  | .mk _ _ _ _ _ _ s => s

def AgentState.withKnownTasks : AgentState → Dict (List String) → AgentState
  | .mk n _ m s e a sub, k => .mk n k m s e a sub

def AgentState.withMemorizedTasks : AgentState → Dict (List String) → AgentState
  | .mk n k _ s e a sub, m => .mk n k m s e a sub

def AgentState.withAttached : AgentState → Dict Attachment → AgentState
  | .mk n k m s e _ sub, a => .mk n k m s e a sub

def AgentState.withSubagents : AgentState → List (String × AgentState) → AgentState
  | .mk n k m s e a _, sub => .mk n k m s e a sub

/-- A fresh agent, as built by `Agent.__init__`
(src/dosaku/core/agent.py lines 20-26). -/
def AgentState.init (name : String) (enableServices enableExecutors : Bool) : AgentState :=
  .mk name [] [] enableServices enableExecutors [] []

/-- The shared world: the two registries, the heap of per-learn actor
classes (`typeTable`, id to type-level attributes) with its
allocation counter, and `loadLog`, an observation trace of the
`load_module` calls the agent delegates to the Module Registry
(module name, force flag, allowServices, allowExecutors). -/
structure World where
  hub : TaskHub
  mm : MM
  typeTable : List (Nat × Dict Callable)
  nextTypeId : Nat
  loadLog : List (String × Bool × Bool × Bool)
deriving DecidableEq, Repr

/-- Modelled from the spec: Module Registry `load_module` (spec
section 4.2). A cache hit with `forceReload` false returns the cached
instance unchanged; otherwise the module's declared permission
requirements are checked against the caller's grants, failing with
the corresponding permission error and caching nothing; on success
the instance is (re)cached. An unknown module name is a lookup
failure. -/
def load_module (mm : MM) (name : String) (forceReload allowServices allowExecutors : Bool) :
    Except Err MM :=
  if mm.cache.contains name && !forceReload then .ok mm
  else
    match alookup mm.catalog name with
    | none => .error (.keyError name)
    | some info =>
      if info.requiresServices && !allowServices then .error .servicePermissionRequired
      else if info.requiresExecutors && !allowExecutors then .error .executorPermissionRequired
      else .ok { mm with cache := if mm.cache.contains name then mm.cache else mm.cache ++ [name] }

/-- Modelled from the spec: Module Registry `get_module_attr` (spec
section 4.2): the callable of the loaded instance under the given
attribute name; fails if the module is not loaded, and with an
attribute lookup failure if the instance has no such attribute. -/
def get_module_attr (mm : MM) (name method : String) : Except Err Callable :=
  if mm.cache.contains name then
    match alookup mm.catalog name with
    | none => .error .moduleForTaskNotFound
    | some info =>
      match alookup info.attrs method with
      | some c => .ok c
      | none => .error (.missingAttrError method)
  else .error .moduleForTaskNotFound

/-- The delegation of `Agent.learn` to `module_manager.load_module`
(src/dosaku/core/agent.py lines 119-127), recording the call in the
observation trace `loadLog` before attempting the load. -/
def World.callLoadModule (w : World) (name : String) (force s e : Bool) :
    Option Err × World :=
  let w1 := { w with loadLog := w.loadLog ++ [(name, force, s, e)] }
  match load_module w1.mm name force s e with
  | .ok mm2 => (none, { w1 with mm := mm2 })
  | .error err => (some err, w1)

/-- Module-name resolution in `Agent.learn` (src/dosaku/core/agent.py
lines 112-116): an explicit module name is used as given; otherwise
`registered_modules(task)` is consulted, raising ModuleForTaskNotFound
when it is `None`, and taking index 0 of the returned list (an index
error on an empty list). -/
def resolveModule (hub : TaskHub) (task : String) (moduleArg : Option String) :
    Except Err String :=
  match moduleArg with
  | some m => .ok m
  | none =>
    match alookup hub.registeredModules task with
    | none => .error .moduleForTaskNotFound
    | some [] => .error .indexError
    | some (m :: _) => .ok m

/-- Write into a type's attribute table in the class heap:
`setattr(actor_class, method, module_attr)` from
src/dosaku/core/agent.py line 139. -/
def tinsert (tt : List (Nat × Dict Callable)) (tid : Nat) (method : String) (c : Callable) :
    List (Nat × Dict Callable) :=
  tt.map fun p => if p.1 = tid then (p.1, ainsert p.2 method c) else p

/-- Result of the attach loop: the optional error, the world (whose
`typeTable` may have gained type-level attributes) and the actor
(whose instance attributes may have grown). -/
structure ALOut where
  err : Option Err
  world : World
  actor : Actor
deriving Repr

/-- The attach loop of `Agent.learn` (src/dosaku/core/agent.py lines
135-143): for each action name of the task's api, fetch the callable
from the loaded module; if its `__name__` contains a double
underscore attach it on the actor's (fresh) class, else on the actor
instance. A fetch failure aborts the loop, keeping the attachments
made so far (Python mutates in place). -/
def attachLoop (modName : String) (w : World) (ac : Actor) :
    List String → ALOut
  | [] => ⟨none, w, ac⟩
  | method :: rest =>
    match get_module_attr w.mm modName method with
    | .error e => ⟨some e, w, ac⟩
    | .ok c =>
      if hasDoubleUnderscore c.defName then
        attachLoop modName { w with typeTable := tinsert w.typeTable ac.typeId method c } ac rest
      else
        attachLoop modName w { ac with instAttrs := ainsert ac.instAttrs method c } rest

/-- Result of `learn`: the optional propagated error, the final world
and the final agent state (mutations made before a failure are kept,
as in the Python source). -/
structure LOut where
  err : Option Err
  world : World
  agent : AgentState

/-- The world after `Agent.learn` creates its fresh `_Actor` class
(src/dosaku/core/agent.py lines 129-133): a new type id is allocated
with an empty type-attribute table. -/
def freshWorld (w1 : World) : World :=
  { w1 with typeTable := w1.typeTable ++ [(w1.nextTypeId, [])], nextTypeId := w1.nextTypeId + 1 }

/-- The binding stages of `Agent.learn` (src/dosaku/core/agent.py
lines 129-144), run after the module has been resolved and loaded:
create a fresh `_Actor` class (a fresh type id with an empty type
attribute table) and a fresh instance, and attach it under the task's
name; iterate over `task_hub.api(task)` (a key error if the hub does
not know the task) attaching each fetched callable at class or
instance level; finally record the task in `_known_tasks` with the
task's api list. Every failure propagates, keeping the mutations
already made. -/
def learnBind (w1 : World) (a : AgentState) (task modName : String) : LOut :=
  let tid := w1.nextTypeId
  let w2 := freshWorld w1
  let ac0 : Actor := ⟨tid, []⟩
  let a1 := a.withAttached (ainsert a.attached task (.actor ac0))
  match alookup w2.hub.tasks task with
  | none => ⟨some (.keyError task), w2, a1⟩
  | some api =>
    let r := attachLoop modName w2 ac0 api
    let a2 := a1.withAttached (ainsert a1.attached task (.actor r.actor))
    match r.err with
    | some e => ⟨some e, r.world, a2⟩
    | none => ⟨none, r.world, a2.withKnownTasks (ainsert a2.knownTasks task api)⟩

/-- `Agent.learn` (src/dosaku/core/agent.py lines 105-144): resolve
the module name (lines 112-116), delegate to the Module Registry's
`load_module` with the agent's current permission flags (lines
119-127), then run the binding stages factored as `learnBind`. A
failure at any stage propagates to the caller. -/
def learn (w : World) (a : AgentState) (task : String) (moduleArg : Option String)
    (forceRelearn : Bool) : LOut :=
  match resolveModule w.hub task moduleArg with
  | .error e => ⟨some e, w, a⟩
  | .ok modName =>
    match w.callLoadModule modName forceRelearn a.allowServices a.allowExecutors with
    | (some e, w1) => ⟨some e, w1, a⟩
    | (none, w1) => learnBind w1 a task modName

/-- `Agent.api` (src/dosaku/core/agent.py lines 42-47): the task's
actions from the Task Registry if the registry knows the task, else
the agent's memorized entry, else `None`. -/
def AgentState.api (hub : TaskHub) (a : AgentState) (task : String) : Option (List String) :=
  if (alookup hub.tasks task).isSome then alookup hub.tasks task
  else alookup a.memorizedTasks task

/-- The `actions` argument of `Agent.memorize`: absent, a single
string, or a list of strings. -/
inductive ActionsArg where
  | noArg
  | str (s : String)
  | list (l : List String)

/-- `Agent.memorize` (src/dosaku/core/agent.py lines 146-153): attach
the ShortTermModule object itself under its own name, then record its
name in `_memorized_tasks` with the given actions, defaulting to the
keys of `stm.api()` in order; a string argument is passed through
Python's `list(...)`, i.e. split into its characters. -/
def AgentState.memorize (a : AgentState) (stm : Stm) (actions : ActionsArg) : AgentState :=
  let a1 := a.withAttached (ainsert a.attached stm.name (.stm stm))
  let acts :=
    match actions with
    | .noArg => akeys stm.api
    | .str s => s.toList.map Char.toString
    | .list l => l
  a1.withMemorizedTasks (ainsert a1.memorizedTasks stm.name acts)

/-- `ifnone` from dosaku.utils (not under src/): the value if present,
else the default, as used by `Agent.spawn_subagent`. -/
def ifnone {α : Type} (x : Option α) (default : α) : α :=
  match x with
  | none => default
  | some v => v

/-- `Agent.spawn_subagent` (src/dosaku/core/agent.py lines 32-37):
default each unspecified permission flag to the parent's current
flag, fail with a ValueError when the name is already a sub-agent,
else create and own a fresh child Agent under the name. -/
def AgentState.spawn_subagent (a : AgentState) (name : String)
    (enableServices enableExecutors : Option Bool) : Option Err × AgentState :=
  let s := ifnone enableServices a.allowServices
  let e := ifnone enableExecutors a.allowExecutors
  if (alookup a.subagents name).isSome then (some .valueError, a)
  else (none, a.withSubagents (ainsert a.subagents name (AgentState.init name s e)))

/-- `Agent.remove_subagent` (src/dosaku/core/agent.py lines 39-40):
`del self.subagents[name]`, a KeyError when the name is absent. -/
def AgentState.remove_subagent (a : AgentState) (name : String) : Option Err × AgentState :=
  if (alookup a.subagents name).isSome then (none, a.withSubagents (aremove a.subagents name))
  else (some (.keyError name), a)

/-- The type-level attachments the attach loop makes for a given api
list: the fetched callables whose `__name__` contains a double
underscore, keyed by action name, in api order. -/
def typeSel (mm : MM) (modName : String) (ms : List String) : Dict Callable :=
  ms.filterMap fun m =>
    match get_module_attr mm modName m with
    | .ok c => if hasDoubleUnderscore c.defName then some (m, c) else none
    | .error _ => none

/-- The instance-level attachments the attach loop makes for a given
api list: the fetched callables whose `__name__` has no double
underscore, keyed by action name, in api order. -/
def instSel (mm : MM) (modName : String) (ms : List String) : Dict Callable :=
  ms.filterMap fun m =>
    match get_module_attr mm modName m with
    | .ok c => if hasDoubleUnderscore c.defName then none else some (m, c)
    | .error _ => none

/-- Concrete callable named `foo` used in the concrete scenarios. -/
def cFoo : Callable := ⟨"foo", 1⟩

/-- Concrete callable whose definition name is the call operator,
used in the concrete scenarios. -/
def cCall : Callable := ⟨"__call__", 3⟩

/-- A fresh agent with both permissions disabled, used as the starting
state of the concrete scenarios. -/
def agent0 : AgentState := AgentState.init "Agent" false false

/-- World for the no-registered-module scenario: the hub knows task
`T` but no module has registered it. -/
def wNoMod : World :=
  ⟨⟨[("T", ["foo"])], []⟩, ⟨[], []⟩, [], 0, []⟩

/-- World for the partial-attach scenario: task `T` declares actions
`foo` and `bar`, while module `M` only provides `foo`. -/
def wMismatch : World :=
  ⟨⟨[("T", ["foo", "bar"])], [("T", ["M"])]⟩,
   ⟨[("M", ⟨false, false, [("foo", cFoo)]⟩)], []⟩, [], 0, []⟩

/-- World for the permission scenarios: module `M` requires services
and implements task `T`'s single action `foo`; nothing cached. -/
def wService : World :=
  ⟨⟨[("T", ["foo"])], [("T", ["M"])]⟩,
   ⟨[("M", ⟨true, false, [("foo", cFoo)]⟩)], []⟩, [], 0, []⟩

/-- Same as `wService` but with module `M` already cached, as if some
caller had loaded it earlier. -/
def wServiceCached : World :=
  ⟨⟨[("T", ["foo"])], [("T", ["M"])]⟩,
   ⟨[("M", ⟨true, false, [("foo", cFoo)]⟩)], ["M"]⟩, [], 0, []⟩

/-- World for the operator-override scenario: task `T` declares the
single action `reply`, and module `M`'s attribute `reply` holds a
callable whose definition name is `__call__`. -/
def wAlias : World :=
  ⟨⟨[("T", ["reply"])], [("T", ["M"])]⟩,
   ⟨[("M", ⟨false, false, [("reply", cCall)]⟩)], []⟩, [], 0, []⟩

/-- A concrete short-term module with two actions. -/
def stmFixture : Stm := ⟨"Notes", [("foo", cFoo), ("bar", ⟨"bar", 2⟩)]⟩

/-- A parent agent that already owns a sub-agent named `x`; its own
permission flags are enabled to make flag inheritance observable. -/
def agentParent : AgentState :=
  AgentState.mk "Parent" [] [] true true [] [("x", AgentState.init "x" false false)]

/-- World for the plain success scenario: task `T` with single
action `foo`, implemented by the permission-free module `M`. -/
def wEcho : World :=
  ⟨⟨[("T", ["foo"])], [("T", ["M"])]⟩,
   ⟨[("M", ⟨false, false, [("foo", cFoo)]⟩)], []⟩, [], 0, []⟩

/-! ### Lemmas -/

theorem alookup_ainsert_self {α : Type} (l : Dict α) (k : String) (v : α) :
    alookup (ainsert l k v) k = some v := by
  induction l with
  | nil => simp [ainsert, alookup]
  | cons p t ih =>
    obtain ⟨k', v'⟩ := p
    by_cases h : k' = k
    · simp [ainsert, alookup, h]
    · simp [ainsert, alookup, h, ih]

theorem alookup_ainsert_ne {α : Type} (l : Dict α) (k k' : String) (v : α) (h : k' ≠ k) :
    alookup (ainsert l k v) k' = alookup l k' := by
  induction l with
  | nil =>
    have hne : ¬(k = k') := fun hh => h hh.symm
    simp [ainsert, alookup, hne]
  | cons p t ih =>
    obtain ⟨k0, v0⟩ := p
    by_cases h0 : k0 = k
    · subst h0
      have hne : ¬(k0 = k') := fun hh => h hh.symm
      simp [ainsert, alookup, hne]
    · simp [ainsert, alookup, h0, ih]

theorem ainsert_of_none {α : Type} (l : Dict α) (k : String) (v : α)
    (h : alookup l k = none) : ainsert l k v = l ++ [(k, v)] := by
  induction l with
  | nil => simp [ainsert]
  | cons p t ih =>
    obtain ⟨k0, v0⟩ := p
    by_cases h0 : k0 = k
    · simp [alookup, h0] at h
    · simp [alookup, h0] at h
      simp [ainsert, h0, ih h]

theorem alookup_append {α : Type} (l1 l2 : Dict α) (k : String) :
    alookup (l1 ++ l2) k =
      match alookup l1 k with
      | some v => some v
      | none => alookup l2 k := by
  induction l1 with
  | nil => simp [alookup]
  | cons p t ih =>
    obtain ⟨k0, v0⟩ := p
    by_cases h0 : k0 = k
    · simp [alookup, h0]
    · simp [alookup, h0, ih]

theorem alookup_aremove_self {α : Type} (l : Dict α) (k : String) :
    alookup (aremove l k) k = none := by
  induction l with
  | nil => simp [aremove, alookup]
  | cons p t ih =>
    obtain ⟨k0, v0⟩ := p
    by_cases h0 : k0 = k
    · simp [aremove, h0, ih]
    · simp [aremove, alookup, h0, ih]

theorem alookup_isSome_iff_mem {α : Type} (l : Dict α) (k : String) :
    (alookup l k).isSome ↔ k ∈ akeys l := by
  induction l with
  | nil => simp [alookup, akeys]
  | cons p t ih =>
    obtain ⟨k0, v0⟩ := p
    by_cases h0 : k0 = k
    · simp [alookup, akeys, h0]
    · have hne : ¬(k = k0) := fun hh => h0 hh.symm
      simp [alookup, akeys, h0, hne, ih]

theorem akeys_ainsert {α : Type} (l : Dict α) (k : String) (v : α) :
    akeys (ainsert l k v) = if (alookup l k).isSome then akeys l else akeys l ++ [k] := by
  induction l with
  | nil => simp [ainsert, alookup, akeys]
  | cons p t ih =>
    obtain ⟨k0, v0⟩ := p
    by_cases h0 : k0 = k
    · simp [ainsert, alookup, akeys, h0]
    · have hstep : ainsert ((k0, v0) :: t) k v = (k0, v0) :: ainsert t k v := by
        simp [ainsert, h0]
      rw [hstep]
      have hlk : alookup ((k0, v0) :: t) k = alookup t k := by simp [alookup, h0]
      rw [hlk]
      show k0 :: akeys (ainsert t k v) = _
      rw [ih]
      by_cases hs : (alookup t k).isSome <;> simp [hs, akeys]

theorem count_akeys_ainsert {α : Type} (l : Dict α) (k : String) (v : α)
    (h : (akeys l).Nodup) : (akeys (ainsert l k v)).count k = 1 := by
  rw [akeys_ainsert]
  by_cases hs : (alookup l k).isSome
  · simp only [hs, if_true]
    exact List.count_eq_one_of_mem h ((alookup_isSome_iff_mem l k).1 hs)
  · have hk : k ∉ akeys l := fun hmem => hs ((alookup_isSome_iff_mem l k).2 hmem)
    simp [hs, List.count_append, List.count_eq_zero.2 hk, List.count_cons]

theorem nlookup_append {α : Type} (l1 l2 : List (Nat × α)) (k : Nat) :
    nlookup (l1 ++ l2) k =
      match nlookup l1 k with
      | some v => some v
      | none => nlookup l2 k := by
  induction l1 with
  | nil => simp [nlookup]
  | cons p t ih =>
    obtain ⟨k0, v0⟩ := p
    by_cases h0 : k0 = k
    · simp [nlookup, h0]
    · simp [nlookup, h0, ih]

theorem tinsert_cons_eq (v0 : Dict Callable) (t : List (Nat × Dict Callable))
    (tid : Nat) (m : String) (c : Callable) :
    tinsert ((tid, v0) :: t) tid m c = (tid, ainsert v0 m c) :: tinsert t tid m c := by
  simp [tinsert]

theorem tinsert_cons_ne (k0 : Nat) (v0 : Dict Callable) (t : List (Nat × Dict Callable))
    (tid : Nat) (m : String) (c : Callable) (h : ¬(k0 = tid)) :
    tinsert ((k0, v0) :: t) tid m c = (k0, v0) :: tinsert t tid m c := by
  simp [tinsert, h]

theorem nlookup_tinsert_ne (tt : List (Nat × Dict Callable)) (tid tid' : Nat)
    (m : String) (c : Callable) (h : tid' ≠ tid) :
    nlookup (tinsert tt tid m c) tid' = nlookup tt tid' := by
  induction tt with
  | nil => simp [tinsert, nlookup]
  | cons p t ih =>
    obtain ⟨k0, v0⟩ := p
    by_cases h0 : k0 = tid
    · subst h0
      have hne : ¬(k0 = tid') := fun hh => h hh.symm
      rw [tinsert_cons_eq]
      simp [nlookup, hne, ih]
    · rw [tinsert_cons_ne _ _ _ _ _ _ h0]
      by_cases h1 : k0 = tid'
      · simp [nlookup, h1]
      · simp [nlookup, h1, ih]

theorem nlookup_tinsert_self (tt : List (Nat × Dict Callable)) (tid : Nat)
    (m : String) (c : Callable) (te : Dict Callable)
    (h : nlookup tt tid = some te) :
    nlookup (tinsert tt tid m c) tid = some (ainsert te m c) := by
  induction tt with
  | nil => simp [nlookup] at h
  | cons p t ih =>
    obtain ⟨k0, v0⟩ := p
    by_cases h0 : k0 = tid
    · subst h0
      simp [nlookup] at h
      subst h
      rw [tinsert_cons_eq]
      simp [nlookup]
    · simp only [nlookup, h0, if_neg, if_false] at h
      rw [tinsert_cons_ne _ _ _ _ _ _ h0]
      simp only [nlookup, h0, if_false, if_neg]
      exact ih h

theorem nlookup_none_of_lt (tt : List (Nat × Dict Callable)) (tid : Nat)
    (h : ∀ p ∈ tt, p.1 < tid) : nlookup tt tid = none := by
  induction tt with
  | nil => simp [nlookup]
  | cons p t ih =>
    obtain ⟨k0, v0⟩ := p
    have hk : k0 < tid := h (k0, v0) (by simp)
    have hne : k0 ≠ tid := Nat.ne_of_lt hk
    simp only [nlookup, hne, if_false, if_neg]
    exact ih fun q hq => h q (List.mem_cons_of_mem _ hq)

theorem alookup_singleton_ne {α : Type} (k k' : String) (v : α) (h : ¬(k = k')) :
    alookup [(k, v)] k' = none := by
  simp [alookup, h]

theorem callLoadModule_hub (w : World) (n : String) (f s e : Bool) :
    (w.callLoadModule n f s e).2.hub = w.hub := by
  simp only [World.callLoadModule]
  cases load_module { w with loadLog := w.loadLog ++ [(n, f, s, e)] }.mm n f s e <;> simp

theorem callLoadModule_typeTable (w : World) (n : String) (f s e : Bool) :
    (w.callLoadModule n f s e).2.typeTable = w.typeTable := by
  simp only [World.callLoadModule]
  cases load_module { w with loadLog := w.loadLog ++ [(n, f, s, e)] }.mm n f s e <;> simp

theorem callLoadModule_nextTypeId (w : World) (n : String) (f s e : Bool) :
    (w.callLoadModule n f s e).2.nextTypeId = w.nextTypeId := by
  simp only [World.callLoadModule]
  cases load_module { w with loadLog := w.loadLog ++ [(n, f, s, e)] }.mm n f s e <;> simp

theorem callLoadModule_loadLog (w : World) (n : String) (f s e : Bool) :
    (w.callLoadModule n f s e).2.loadLog = w.loadLog ++ [(n, f, s, e)] := by
  simp only [World.callLoadModule]
  cases load_module { w with loadLog := w.loadLog ++ [(n, f, s, e)] }.mm n f s e <;> simp

theorem callLoadModule_err_mm (w : World) (n : String) (f s e : Bool) (er : Err) (w' : World)
    (h : w.callLoadModule n f s e = (some er, w')) : w'.mm = w.mm := by
  simp only [World.callLoadModule] at h
  cases hl : load_module { w with loadLog := w.loadLog ++ [(n, f, s, e)] }.mm n f s e with
  | ok mm2 => rw [hl] at h; simp at h
  | error err => rw [hl] at h; simp at h; rw [← h.2]

theorem callLoadModule_err_eq (w : World) (n : String) (f s e : Bool) (er : Err) (w' : World)
    (h : w.callLoadModule n f s e = (some er, w')) :
    load_module w.mm n f s e = .error er := by
  simp only [World.callLoadModule] at h
  cases hl : load_module { w with loadLog := w.loadLog ++ [(n, f, s, e)] }.mm n f s e with
  | ok mm2 => rw [hl] at h; simp at h
  | error err =>
    rw [hl] at h
    simp at h
    rw [← h.1]

theorem attachLoop_typeId (modName : String) (ms : List String) (w : World) (ac : Actor) :
    (attachLoop modName w ac ms).actor.typeId = ac.typeId := by
  induction ms generalizing w ac with
  | nil => simp [attachLoop]
  | cons m rest ih =>
    simp only [attachLoop]
    cases hg : get_module_attr w.mm modName m with
    | error e => simp
    | ok c =>
      by_cases hd : hasDoubleUnderscore c.defName
      · simp only [hd, if_true]
        exact ih _ _
      · simp only [hd, if_false, Bool.false_eq_true]
        exact ih _ _

theorem attachLoop_mm (modName : String) (ms : List String) (w : World) (ac : Actor) :
    (attachLoop modName w ac ms).world.mm = w.mm := by
  induction ms generalizing w ac with
  | nil => simp [attachLoop]
  | cons m rest ih =>
    simp only [attachLoop]
    cases hg : get_module_attr w.mm modName m with
    | error e => simp
    | ok c =>
      by_cases hd : hasDoubleUnderscore c.defName
      · simp only [hd, if_true]
        exact ih _ _
      · simp only [hd, if_false, Bool.false_eq_true]
        exact ih _ _

theorem attachLoop_hub (modName : String) (ms : List String) (w : World) (ac : Actor) :
    (attachLoop modName w ac ms).world.hub = w.hub := by
  induction ms generalizing w ac with
  | nil => simp [attachLoop]
  | cons m rest ih =>
    simp only [attachLoop]
    cases hg : get_module_attr w.mm modName m with
    | error e => simp
    | ok c =>
      by_cases hd : hasDoubleUnderscore c.defName
      · simp only [hd, if_true]
        exact ih _ _
      · simp only [hd, if_false, Bool.false_eq_true]
        exact ih _ _

theorem attachLoop_nextTypeId (modName : String) (ms : List String) (w : World) (ac : Actor) :
    (attachLoop modName w ac ms).world.nextTypeId = w.nextTypeId := by
  induction ms generalizing w ac with
  | nil => simp [attachLoop]
  | cons m rest ih =>
    simp only [attachLoop]
    cases hg : get_module_attr w.mm modName m with
    | error e => simp
    | ok c =>
      by_cases hd : hasDoubleUnderscore c.defName
      · simp only [hd, if_true]
        exact ih _ _
      · simp only [hd, if_false, Bool.false_eq_true]
        exact ih _ _

theorem attachLoop_loadLog (modName : String) (ms : List String) (w : World) (ac : Actor) :
    (attachLoop modName w ac ms).world.loadLog = w.loadLog := by
  induction ms generalizing w ac with
  | nil => simp [attachLoop]
  | cons m rest ih =>
    simp only [attachLoop]
    cases hg : get_module_attr w.mm modName m with
    | error e => simp
    | ok c =>
      by_cases hd : hasDoubleUnderscore c.defName
      · simp only [hd, if_true]
        exact ih _ _
      · simp only [hd, if_false, Bool.false_eq_true]
        exact ih _ _

theorem attachLoop_typeTable_ne (modName : String) (ms : List String) (w : World) (ac : Actor)
    (tid : Nat) (h : tid ≠ ac.typeId) :
    nlookup (attachLoop modName w ac ms).world.typeTable tid = nlookup w.typeTable tid := by
  induction ms generalizing w ac with
  | nil => simp [attachLoop]
  | cons m rest ih =>
    simp only [attachLoop]
    cases hg : get_module_attr w.mm modName m with
    | error e => simp
    | ok c =>
      by_cases hd : hasDoubleUnderscore c.defName
      · simp only [hd, if_true]
        rw [ih _ _ h]
        exact nlookup_tinsert_ne _ _ _ _ _ h
      · simp only [hd, if_false, Bool.false_eq_true]
        exact ih _ _ h

theorem typeSel_cons_du (mm : MM) (modName m : String) (rest : List String) (c : Callable)
    (hg : get_module_attr mm modName m = .ok c) (hd : hasDoubleUnderscore c.defName = true) :
    typeSel mm modName (m :: rest) = (m, c) :: typeSel mm modName rest := by
  simp [typeSel, List.filterMap_cons, hg, hd]

theorem typeSel_cons_nodu (mm : MM) (modName m : String) (rest : List String) (c : Callable)
    (hg : get_module_attr mm modName m = .ok c) (hd : hasDoubleUnderscore c.defName = false) :
    typeSel mm modName (m :: rest) = typeSel mm modName rest := by
  simp [typeSel, List.filterMap_cons, hg, hd]

theorem instSel_cons_du (mm : MM) (modName m : String) (rest : List String) (c : Callable)
    (hg : get_module_attr mm modName m = .ok c) (hd : hasDoubleUnderscore c.defName = true) :
    instSel mm modName (m :: rest) = instSel mm modName rest := by
  simp [instSel, List.filterMap_cons, hg, hd]

theorem instSel_cons_nodu (mm : MM) (modName m : String) (rest : List String) (c : Callable)
    (hg : get_module_attr mm modName m = .ok c) (hd : hasDoubleUnderscore c.defName = false) :
    instSel mm modName (m :: rest) = (m, c) :: instSel mm modName rest := by
  simp [instSel, List.filterMap_cons, hg, hd]

theorem attachLoop_cons_err (modName : String) (w : World) (ac : Actor) (m : String)
    (rest : List String) (e : Err) (hg : get_module_attr w.mm modName m = .error e) :
    attachLoop modName w ac (m :: rest) = ⟨some e, w, ac⟩ := by
  simp [attachLoop, hg]

theorem attachLoop_cons_du (modName : String) (w : World) (ac : Actor) (m : String)
    (rest : List String) (c : Callable) (hg : get_module_attr w.mm modName m = .ok c)
    (hd : hasDoubleUnderscore c.defName = true) :
    attachLoop modName w ac (m :: rest) =
      attachLoop modName { w with typeTable := tinsert w.typeTable ac.typeId m c } ac rest := by
  simp [attachLoop, hg, hd]

theorem attachLoop_cons_nodu (modName : String) (w : World) (ac : Actor) (m : String)
    (rest : List String) (c : Callable) (hg : get_module_attr w.mm modName m = .ok c)
    (hd : hasDoubleUnderscore c.defName = false) :
    attachLoop modName w ac (m :: rest) =
      attachLoop modName w { ac with instAttrs := ainsert ac.instAttrs m c } rest := by
  simp [attachLoop, hg, hd]

theorem attachLoop_ok_spec (modName : String) (ms : List String) (w : World) (ac : Actor)
    (te : Dict Callable)
    (hnd : ms.Nodup)
    (hte : nlookup w.typeTable ac.typeId = some te)
    (hteK : ∀ m ∈ ms, alookup te m = none)
    (hiaK : ∀ m ∈ ms, alookup ac.instAttrs m = none)
    (hok : (attachLoop modName w ac ms).err = none) :
    nlookup (attachLoop modName w ac ms).world.typeTable ac.typeId
      = some (te ++ typeSel w.mm modName ms)
    ∧ (attachLoop modName w ac ms).actor.instAttrs = ac.instAttrs ++ instSel w.mm modName ms := by
  induction ms generalizing w ac te with
  | nil => simp [attachLoop, typeSel, instSel, hte]
  | cons m rest ih =>
    have hmrest : m ∉ rest := (List.nodup_cons.1 hnd).1
    have hndr : rest.Nodup := (List.nodup_cons.1 hnd).2
    cases hg : get_module_attr w.mm modName m with
    | error e =>
      rw [attachLoop_cons_err _ _ _ _ _ _ hg] at hok
      simp at hok
    | ok c =>
      by_cases hd : hasDoubleUnderscore c.defName
      · rw [attachLoop_cons_du _ _ _ _ _ _ hg hd] at hok ⊢
        have hteApp : ainsert te m c = te ++ [(m, c)] :=
          ainsert_of_none _ _ _ (hteK m (by simp))
        have hte' : nlookup ({ w with typeTable := tinsert w.typeTable ac.typeId m c }).typeTable
            ac.typeId = some (te ++ [(m, c)]) := by
          show nlookup (tinsert w.typeTable ac.typeId m c) ac.typeId = _
          rw [nlookup_tinsert_self _ _ _ _ _ hte, hteApp]
        have hteK' : ∀ m' ∈ rest, alookup (te ++ [(m, c)]) m' = none := by
          intro m' hm'
          rw [alookup_append]
          have h1 : alookup te m' = none := hteK m' (by simp [hm'])
          have h2 : alookup [(m, c)] m' = none :=
            alookup_singleton_ne _ _ _ (fun hh => hmrest (hh ▸ hm'))
          simp [h1, h2]
        have hiaK' : ∀ m' ∈ rest, alookup ac.instAttrs m' = none :=
          fun m' hm' => hiaK m' (by simp [hm'])
        have hres := ih ({ w with typeTable := tinsert w.typeTable ac.typeId m c }) ac
          (te ++ [(m, c)]) hndr hte' hteK' hiaK' hok
        rw [typeSel_cons_du _ _ _ _ _ hg hd, instSel_cons_du _ _ _ _ _ hg hd]
        constructor
        · rw [hres.1]
          simp
        · rw [hres.2]
      · have hd' : hasDoubleUnderscore c.defName = false := by simpa using hd
        rw [attachLoop_cons_nodu _ _ _ _ _ _ hg hd'] at hok ⊢
        have hiaApp : ainsert ac.instAttrs m c = ac.instAttrs ++ [(m, c)] :=
          ainsert_of_none _ _ _ (hiaK m (by simp))
        have hiaK' : ∀ m' ∈ rest,
            alookup ({ ac with instAttrs := ainsert ac.instAttrs m c }).instAttrs m' = none := by
          intro m' hm'
          show alookup (ainsert ac.instAttrs m c) m' = none
          rw [hiaApp, alookup_append]
          have h1 : alookup ac.instAttrs m' = none := hiaK m' (by simp [hm'])
          have h2 : alookup [(m, c)] m' = none :=
            alookup_singleton_ne _ _ _ (fun hh => hmrest (hh ▸ hm'))
          simp [h1, h2]
        have hteK' : ∀ m' ∈ rest, alookup te m' = none :=
          fun m' hm' => hteK m' (by simp [hm'])
        have hte' : nlookup w.typeTable ({ ac with instAttrs := ainsert ac.instAttrs m c }).typeId
            = some te := hte
        have hres := ih w ({ ac with instAttrs := ainsert ac.instAttrs m c }) te hndr hte'
          hteK' hiaK' hok
        rw [typeSel_cons_nodu _ _ _ _ _ hg hd', instSel_cons_nodu _ _ _ _ _ hg hd']
        constructor
        · exact hres.1
        · rw [hres.2]
          show ainsert ac.instAttrs m c ++ _ = _
          rw [hiaApp]
          simp

@[simp] theorem name_withAttached (a : AgentState) (l : Dict Attachment) :
    (a.withAttached l).name = a.name := by
  cases a; rfl

@[simp] theorem knownTasks_withAttached (a : AgentState) (l : Dict Attachment) :
    (a.withAttached l).knownTasks = a.knownTasks := by
  cases a; rfl

@[simp] theorem memorizedTasks_withAttached (a : AgentState) (l : Dict Attachment) :
    (a.withAttached l).memorizedTasks = a.memorizedTasks := by
  cases a; rfl

@[simp] theorem allowServices_withAttached (a : AgentState) (l : Dict Attachment) :
    (a.withAttached l).allowServices = a.allowServices := by
  cases a; rfl

@[simp] theorem allowExecutors_withAttached (a : AgentState) (l : Dict Attachment) :
    (a.withAttached l).allowExecutors = a.allowExecutors := by
  cases a; rfl

@[simp] theorem attached_withAttached (a : AgentState) (l : Dict Attachment) :
    (a.withAttached l).attached = l := by
  cases a; rfl

@[simp] theorem subagents_withAttached (a : AgentState) (l : Dict Attachment) :
    (a.withAttached l).subagents = a.subagents := by
  cases a; rfl

@[simp] theorem name_withKnownTasks (a : AgentState) (l : Dict (List String)) :
    (a.withKnownTasks l).name = a.name := by
  cases a; rfl

@[simp] theorem knownTasks_withKnownTasks (a : AgentState) (l : Dict (List String)) :
    (a.withKnownTasks l).knownTasks = l := by
  cases a; rfl

@[simp] theorem memorizedTasks_withKnownTasks (a : AgentState) (l : Dict (List String)) :
    (a.withKnownTasks l).memorizedTasks = a.memorizedTasks := by
  cases a; rfl

@[simp] theorem allowServices_withKnownTasks (a : AgentState) (l : Dict (List String)) :
    (a.withKnownTasks l).allowServices = a.allowServices := by
  cases a; rfl

@[simp] theorem allowExecutors_withKnownTasks (a : AgentState) (l : Dict (List String)) :
    (a.withKnownTasks l).allowExecutors = a.allowExecutors := by
  cases a; rfl

@[simp] theorem attached_withKnownTasks (a : AgentState) (l : Dict (List String)) :
    (a.withKnownTasks l).attached = a.attached := by
  cases a; rfl

@[simp] theorem subagents_withKnownTasks (a : AgentState) (l : Dict (List String)) :
    (a.withKnownTasks l).subagents = a.subagents := by
  cases a; rfl

@[simp] theorem name_withMemorizedTasks (a : AgentState) (l : Dict (List String)) :
    (a.withMemorizedTasks l).name = a.name := by
  cases a; rfl

@[simp] theorem knownTasks_withMemorizedTasks (a : AgentState) (l : Dict (List String)) :
    (a.withMemorizedTasks l).knownTasks = a.knownTasks := by
  cases a; rfl

@[simp] theorem memorizedTasks_withMemorizedTasks (a : AgentState) (l : Dict (List String)) :
    (a.withMemorizedTasks l).memorizedTasks = l := by
  cases a; rfl

@[simp] theorem allowServices_withMemorizedTasks (a : AgentState) (l : Dict (List String)) :
    (a.withMemorizedTasks l).allowServices = a.allowServices := by
  cases a; rfl

@[simp] theorem allowExecutors_withMemorizedTasks (a : AgentState) (l : Dict (List String)) :
    (a.withMemorizedTasks l).allowExecutors = a.allowExecutors := by
  cases a; rfl

@[simp] theorem attached_withMemorizedTasks (a : AgentState) (l : Dict (List String)) :
    (a.withMemorizedTasks l).attached = a.attached := by
  cases a; rfl

@[simp] theorem subagents_withMemorizedTasks (a : AgentState) (l : Dict (List String)) :
    (a.withMemorizedTasks l).subagents = a.subagents := by
  cases a; rfl

@[simp] theorem name_withSubagents (a : AgentState) (l : List (String × AgentState)) :
    (a.withSubagents l).name = a.name := by
  cases a; rfl

@[simp] theorem knownTasks_withSubagents (a : AgentState) (l : List (String × AgentState)) :
    (a.withSubagents l).knownTasks = a.knownTasks := by
  cases a; rfl

@[simp] theorem memorizedTasks_withSubagents (a : AgentState) (l : List (String × AgentState)) :
    (a.withSubagents l).memorizedTasks = a.memorizedTasks := by
  cases a; rfl

@[simp] theorem allowServices_withSubagents (a : AgentState) (l : List (String × AgentState)) :
    (a.withSubagents l).allowServices = a.allowServices := by
  cases a; rfl

@[simp] theorem allowExecutors_withSubagents (a : AgentState) (l : List (String × AgentState)) :
    (a.withSubagents l).allowExecutors = a.allowExecutors := by
  cases a; rfl

@[simp] theorem attached_withSubagents (a : AgentState) (l : List (String × AgentState)) :
    (a.withSubagents l).attached = a.attached := by
  cases a; rfl

@[simp] theorem subagents_withSubagents (a : AgentState) (l : List (String × AgentState)) :
    (a.withSubagents l).subagents = l := by
  cases a; rfl

theorem learn_resolve_err (w : World) (a : AgentState) (task : String)
    (marg : Option String) (f : Bool) (e : Err)
    (h : resolveModule w.hub task marg = .error e) :
    learn w a task marg f = ⟨some e, w, a⟩ := by
  simp [learn, h]

theorem learn_load_err (w : World) (a : AgentState) (task : String)
    (marg : Option String) (f : Bool) (mn : String) (e : Err) (w1 : World)
    (h1 : resolveModule w.hub task marg = .ok mn)
    (h2 : w.callLoadModule mn f a.allowServices a.allowExecutors = (some e, w1)) :
    learn w a task marg f = ⟨some e, w1, a⟩ := by
  simp [learn, h1, h2]

theorem learn_load_ok (w : World) (a : AgentState) (task : String)
    (marg : Option String) (f : Bool) (mn : String) (w1 : World)
    (h1 : resolveModule w.hub task marg = .ok mn)
    (h2 : w.callLoadModule mn f a.allowServices a.allowExecutors = (none, w1)) :
    learn w a task marg f = learnBind w1 a task mn := by
  simp [learn, h1, h2]

@[simp] theorem withAttached_withAttached (a : AgentState) (x y : Dict Attachment) :
    (a.withAttached x).withAttached y = a.withAttached y := by
  cases a; rfl

theorem ainsert_ainsert_same {α : Type} (l : Dict α) (k : String) (v v' : α) :
    ainsert (ainsert l k v) k v' = ainsert l k v' := by
  induction l with
  | nil => simp [ainsert]
  | cons p t ih =>
    obtain ⟨k0, v0⟩ := p
    by_cases h0 : k0 = k
    · simp [ainsert, h0]
    · simp [ainsert, h0, ih]

theorem freshWorld_hub (w1 : World) : (freshWorld w1).hub = w1.hub := rfl

theorem freshWorld_mm (w1 : World) : (freshWorld w1).mm = w1.mm := rfl

theorem freshWorld_loadLog (w1 : World) : (freshWorld w1).loadLog = w1.loadLog := rfl

theorem freshWorld_typeTable (w1 : World) :
    (freshWorld w1).typeTable = w1.typeTable ++ [(w1.nextTypeId, [])] := rfl

theorem freshWorld_nextTypeId (w1 : World) : (freshWorld w1).nextTypeId = w1.nextTypeId + 1 := rfl

attribute [simp] freshWorld_hub freshWorld_mm freshWorld_loadLog

theorem learnBind_loadLog (w1 : World) (a : AgentState) (task mn : String) :
    (learnBind w1 a task mn).world.loadLog = w1.loadLog := by
  cases hapi : alookup w1.hub.tasks task with
  | none => simp [learnBind, hapi]
  | some api =>
    simp only [learnBind, freshWorld_hub, hapi]
    split <;> simp [attachLoop_loadLog]

/-- C1: for every task for which the Task Registry reports no
registered modules, `Agent.learn` called with no explicit module
argument fails with ModuleForTaskNotFound, and a task that was not
known stays absent from the known tasks afterward. -/
theorem learn_no_registered_module (w : World) (a : AgentState) (task : String) (f : Bool)
    (hreg : alookup w.hub.registeredModules task = none)
    (hunknown : alookup a.knownTasks task = none) :
    (learn w a task none f).err = some .moduleForTaskNotFound
    ∧ alookup (learn w a task none f).agent.knownTasks task = none := by
  have hres : resolveModule w.hub task none = .error .moduleForTaskNotFound := by
    simp [resolveModule, hreg]
  rw [learn_resolve_err _ _ _ _ _ _ hres]
  exact ⟨rfl, hunknown⟩

/-- C1 witness: the concrete no-registered-module world. -/
theorem learn_no_registered_module_witness :
    (learn wNoMod agent0 "T" none false).err = some .moduleForTaskNotFound
    ∧ alookup (learn wNoMod agent0 "T" none false).agent.knownTasks "T" = none :=
  learn_no_registered_module wNoMod agent0 "T" false (by decide) (by decide)

/-- C3: with no module argument and a nonempty registered-modules
list for the task, `Agent.learn` selects exactly the module at index
0 and delegates its load to the Module Registry (with the agent's
current permission flags). -/
theorem learn_selects_first_module (w : World) (a : AgentState) (task : String) (f : Bool)
    (m : String) (rest : List String)
    (hreg : alookup w.hub.registeredModules task = some (m :: rest)) :
    (learn w a task none f).world.loadLog
      = w.loadLog ++ [(m, f, a.allowServices, a.allowExecutors)] := by
  have hres : resolveModule w.hub task none = .ok m := by
    simp [resolveModule, hreg]
  cases hc : w.callLoadModule m f a.allowServices a.allowExecutors with
  | mk e1 w1 =>
    have hlog : w1.loadLog = w.loadLog ++ [(m, f, a.allowServices, a.allowExecutors)] := by
      have hll := callLoadModule_loadLog w m f a.allowServices a.allowExecutors
      rw [hc] at hll
      exact hll
    cases e1 with
    | none =>
      rw [learn_load_ok _ _ _ _ _ _ _ hres hc, learnBind_loadLog]
      exact hlog
    | some e =>
      rw [learn_load_err _ _ _ _ _ _ _ _ hres hc]
      exact hlog

/-- C3 witness: in the concrete service world the first (only)
registered module for task `T` is `M`, and learning logs its load. -/
theorem learn_selects_first_module_witness :
    (learn wService agent0 "T" none false).world.loadLog
      = wService.loadLog ++ [("M", false, agent0.allowServices, agent0.allowExecutors)] :=
  learn_selects_first_module wService agent0 "T" false "M" [] (by decide)

/-- C7: `Agent.memorize` with no explicit actions argument attaches
the ShortTermModule object itself (the very value, with no registry
access and regardless of permission flags) under its own name, and
records its name with the keys of its `api()` in order; the rest of
the agent's state is untouched. -/
theorem memorize_default_records_api (a : AgentState) (stm : Stm) :
    alookup (a.memorize stm .noArg).attached stm.name = some (.stm stm)
    ∧ alookup (a.memorize stm .noArg).memorizedTasks stm.name = some (akeys stm.api)
    ∧ (a.memorize stm .noArg).knownTasks = a.knownTasks
    ∧ (a.memorize stm .noArg).allowServices = a.allowServices
    ∧ (a.memorize stm .noArg).allowExecutors = a.allowExecutors
    ∧ (a.memorize stm .noArg).subagents = a.subagents := by
  simp [AgentState.memorize, alookup_ainsert_self]

/-- C9: `Agent.memorize` with a string actions argument records the
list of the string's individual characters, as Python's `list` on a
string produces; in particular the string `foo` records the
three-element list of its letters. -/
theorem memorize_string_actions_chars (a : AgentState) (stm : Stm) (s : String) :
    alookup (a.memorize stm (.str s)).memorizedTasks stm.name
      = some (s.toList.map Char.toString)
    ∧ alookup (a.memorize stm (.str "foo")).memorizedTasks stm.name
      = some ["f", "o", "o"] := by
  constructor
  · simp [AgentState.memorize, alookup_ainsert_self]
  · simp [AgentState.memorize, alookup_ainsert_self]
    exact ⟨rfl, rfl⟩

/-- C10: `Agent.remove_subagent` on a name that is not a sub-agent
raises a KeyError and leaves the parent (in particular its sub-agent
mapping) unchanged. -/
theorem remove_subagent_absent (a : AgentState) (n : String)
    (h : (alookup a.subagents n).isNone = true) :
    a.remove_subagent n = (some (.keyError n), a) := by
  have h' : ¬((alookup a.subagents n).isSome = true) := by
    rw [Option.isNone_iff_eq_none] at h
    simp [h]
  simp [AgentState.remove_subagent, h']

/-- C10 witness: the fresh agent has no sub-agent named `x`. -/
theorem remove_subagent_absent_witness :
    agent0.remove_subagent "x" = (some (.keyError "x"), agent0) :=
  remove_subagent_absent agent0 "x" (by decide)

/-- C8: sub-agent names are unique within their parent: spawning an
existing name fails with the ValueError collision and changes
nothing; after a successful removal the same name spawns again; and a
spawn with unspecified flags gives the child the parent's current
permission flags. -/
theorem spawn_subagent_spec (a : AgentState) (n : String) (es ee : Option Bool) :
    ((alookup a.subagents n).isSome = true → a.spawn_subagent n es ee = (some .valueError, a))
    ∧ ((a.remove_subagent n).1 = none →
        ((a.remove_subagent n).2.spawn_subagent n es ee).1 = none)
    ∧ ((alookup a.subagents n).isSome = false →
        alookup (a.spawn_subagent n none none).2.subagents n
          = some (AgentState.init n a.allowServices a.allowExecutors)) := by
  refine ⟨?_, ?_, ?_⟩
  · intro h
    simp [AgentState.spawn_subagent, h]
  · intro h
    by_cases hs : (alookup a.subagents n).isSome = true
    · simp only [AgentState.remove_subagent, hs, if_true]
      have hgone : alookup (aremove a.subagents n) n = none := alookup_aremove_self _ _
      simp [AgentState.spawn_subagent, hgone]
    · simp [AgentState.remove_subagent, hs] at h
  · intro h
    simp [AgentState.spawn_subagent, h, ifnone, alookup_ainsert_self]

/-- C8 witness: on the concrete parent owning sub-agent `x`,
re-spawning `x` collides, spawning after removal succeeds, and a
fresh spawn of `y` inherits the parent's enabled flags. -/
theorem spawn_subagent_spec_witness :
    agentParent.spawn_subagent "x" none none = (some .valueError, agentParent)
    ∧ ((agentParent.remove_subagent "x").2.spawn_subagent "x" none none).1 = none
    ∧ alookup (agentParent.spawn_subagent "y" none none).2.subagents "y"
      = some (AgentState.init "y" true true) :=
  ⟨(spawn_subagent_spec agentParent "x" none none).1 (by decide),
   (spawn_subagent_spec agentParent "x" none none).2.1 (by decide),
   (spawn_subagent_spec agentParent "y" none none).2.2 (by decide)⟩

/-- C4 counterexample: module `M` requires services and the agent has
services disabled, yet `learn` succeeds because `M` is already in the
Module Registry cache and `load_module` returns a cached instance
without re-checking permissions. -/
theorem learn_service_cached_counterexample :
    wServiceCached.mm.cache.contains "M" = true
    ∧ (alookup wServiceCached.mm.catalog "M").map ModuleInfo.requiresServices = some true
    ∧ agent0.allowServices = false
    ∧ (learn wServiceCached agent0 "T" (some "M") false).err = none
    ∧ alookup (learn wServiceCached agent0 "T" (some "M") false).agent.knownTasks "T"
        = some ["foo"] := by
  decide

/-- C4 (amended): if module M requires services, the agent has
services disabled, and M is not currently cached, then
`learn(T, module=M)` fails with ServicePermissionRequired propagated
unchanged from `load_module`, the agent is untouched (so T stays
absent from its known tasks), and no instance of M is cached. -/
theorem learn_service_permission_uncached (w : World) (a : AgentState) (task mn : String)
    (f : Bool) (info : ModuleInfo)
    (hcat : alookup w.mm.catalog mn = some info)
    (hreq : info.requiresServices = true)
    (hsvc : a.allowServices = false)
    (hcache : w.mm.cache.contains mn = false)
    (hunknown : alookup a.knownTasks task = none) :
    (learn w a task (some mn) f).err = some .servicePermissionRequired
    ∧ (learn w a task (some mn) f).agent = a
    ∧ (learn w a task (some mn) f).world.mm = w.mm
    ∧ alookup (learn w a task (some mn) f).agent.knownTasks task = none
    ∧ (learn w a task (some mn) f).world.mm.cache.contains mn = false := by
  have hres : resolveModule w.hub task (some mn) = .ok mn := rfl
  have hmem : mn ∉ w.mm.cache := by simpa using hcache
  have hload : load_module w.mm mn f a.allowServices a.allowExecutors
      = .error .servicePermissionRequired := by
    simp [load_module, hmem, hcat, hreq, hsvc]
  have hc : w.callLoadModule mn f a.allowServices a.allowExecutors
      = (some .servicePermissionRequired,
         { w with loadLog := w.loadLog ++ [(mn, f, a.allowServices, a.allowExecutors)] }) := by
    simp only [World.callLoadModule]
    rw [hload]
  rw [learn_load_err _ _ _ _ _ _ _ _ hres hc]
  exact ⟨rfl, rfl, rfl, hunknown, hcache⟩

/-- C4 witness: the concrete uncached service world. -/
theorem learn_service_permission_uncached_witness :
    (learn wService agent0 "T" (some "M") false).err = some .servicePermissionRequired
    ∧ (learn wService agent0 "T" (some "M") false).agent = agent0
    ∧ (learn wService agent0 "T" (some "M") false).world.mm = wService.mm
    ∧ alookup (learn wService agent0 "T" (some "M") false).agent.knownTasks "T" = none
    ∧ (learn wService agent0 "T" (some "M") false).world.mm.cache.contains "M" = false :=
  learn_service_permission_uncached wService agent0 "T" "M" false
    ⟨true, false, [("foo", cFoo)]⟩ (by decide) (by decide) (by decide) (by decide) (by decide)


theorem learnBind_ok_spec (w1 : World) (a : AgentState) (task mn : String) (api : List String)
    (hapi : alookup w1.hub.tasks task = some api)
    (hok : (learnBind w1 a task mn).err = none) :
    (attachLoop mn (freshWorld w1) ⟨w1.nextTypeId, []⟩ api).err = none
    ∧ learnBind w1 a task mn =
        ⟨none,
         (attachLoop mn (freshWorld w1) ⟨w1.nextTypeId, []⟩ api).world,
         (a.withAttached (ainsert a.attached task
            (.actor (attachLoop mn (freshWorld w1) ⟨w1.nextTypeId, []⟩ api).actor))).withKnownTasks
           (ainsert a.knownTasks task api)⟩ := by
  simp only [learnBind, freshWorld_hub, hapi] at hok ⊢
  cases herr : (attachLoop mn (freshWorld w1) ⟨w1.nextTypeId, []⟩ api).err with
  | some e => simp [herr] at hok
  | none =>
    refine ⟨rfl, ?_⟩
    simp [ainsert_ainsert_same]

theorem learnBind_err_spec (w1 : World) (a : AgentState) (task mn : String) (e : Err)
    (hfail : (learnBind w1 a task mn).err = some e) :
    (learnBind w1 a task mn).agent.knownTasks = a.knownTasks
    ∧ (learnBind w1 a task mn).agent.memorizedTasks = a.memorizedTasks
    ∧ (learnBind w1 a task mn).agent.allowServices = a.allowServices
    ∧ (learnBind w1 a task mn).agent.allowExecutors = a.allowExecutors
    ∧ (learnBind w1 a task mn).agent.name = a.name
    ∧ (learnBind w1 a task mn).agent.subagents = a.subagents
    ∧ (∀ t', t' ≠ task → alookup (learnBind w1 a task mn).agent.attached t'
        = alookup a.attached t')
    ∧ ∃ ac : Actor, alookup (learnBind w1 a task mn).agent.attached task = some (.actor ac)
        ∧ ac.typeId = w1.nextTypeId := by
  cases hapi : alookup w1.hub.tasks task with
  | none =>
    simp only [learnBind, freshWorld_hub, hapi]
    refine ⟨by simp, by simp, by simp, by simp, by simp, by simp, ?_, ?_⟩
    · intro t' ht'
      simp [alookup_ainsert_ne _ _ _ _ ht']
    · exact ⟨⟨w1.nextTypeId, []⟩, by simp [alookup_ainsert_self], rfl⟩
  | some api =>
    simp only [learnBind, freshWorld_hub, hapi] at hfail ⊢
    cases herr : (attachLoop mn (freshWorld w1) ⟨w1.nextTypeId, []⟩ api).err with
    | none => simp [herr] at hfail
    | some e' =>
      refine ⟨by simp, by simp, by simp, by simp, by simp, by simp, ?_, ?_⟩
      · intro t' ht'
        simp [ainsert_ainsert_same, alookup_ainsert_ne _ _ _ _ ht']
      · refine ⟨(attachLoop mn (freshWorld w1) ⟨w1.nextTypeId, []⟩ api).actor,
          by simp [ainsert_ainsert_same, alookup_ainsert_self], ?_⟩
        rw [attachLoop_typeId]

/-- C5: after every successful `learn`, the agent's `api` for the
task agrees with the Task Registry's `api` (same names, same order,
via the registry branch of `Agent.api`), and the task appears exactly
once among the known tasks. -/
theorem learn_success_api_known (w : World) (a : AgentState) (task : String)
    (marg : Option String) (f : Bool)
    (hok : (learn w a task marg f).err = none)
    (hnd : (akeys a.knownTasks).Nodup) :
    (learn w a task marg f).world.hub = w.hub
    ∧ (alookup w.hub.tasks task).isSome = true
    ∧ AgentState.api (learn w a task marg f).world.hub (learn w a task marg f).agent task
        = alookup w.hub.tasks task
    ∧ (akeys (learn w a task marg f).agent.knownTasks).count task = 1 := by
  cases hres : resolveModule w.hub task marg with
  | error e =>
    rw [learn_resolve_err _ _ _ _ _ _ hres] at hok
    simp at hok
  | ok mn =>
    cases hc : w.callLoadModule mn f a.allowServices a.allowExecutors with
    | mk e1 w1 =>
      cases e1 with
      | some e =>
        rw [learn_load_err _ _ _ _ _ _ _ _ hres hc] at hok
        simp at hok
      | none =>
        have hhub : w1.hub = w.hub := by
          have hh := callLoadModule_hub w mn f a.allowServices a.allowExecutors
          rw [hc] at hh
          exact hh
        rw [learn_load_ok _ _ _ _ _ _ _ hres hc] at hok ⊢
        cases hapi : alookup w1.hub.tasks task with
        | none =>
          simp [learnBind, hapi] at hok
        | some api =>
          obtain ⟨hloop, heq⟩ := learnBind_ok_spec w1 a task mn api hapi hok
          rw [heq]
          have hhub2 : (attachLoop mn (freshWorld w1) ⟨w1.nextTypeId, []⟩ api).world.hub
              = w.hub := by
            rw [attachLoop_hub, freshWorld_hub]
            exact hhub
          have hsome : alookup w.hub.tasks task = some api := by
            rw [← hhub]
            exact hapi
          refine ⟨hhub2, by simp [hsome], ?_, ?_⟩
          · simp only [AgentState.api, hhub2, hsome]
            simp
          · simp only [LOut.agent, knownTasks_withKnownTasks]
            exact count_akeys_ainsert _ _ _ hnd

/-- C5 witness: the concrete permission-free success scenario. -/
theorem learn_success_api_known_witness :
    (learn wEcho agent0 "T" none false).world.hub = wEcho.hub
    ∧ (alookup wEcho.hub.tasks "T").isSome = true
    ∧ AgentState.api (learn wEcho agent0 "T" none false).world.hub
        (learn wEcho agent0 "T" none false).agent "T" = alookup wEcho.hub.tasks "T"
    ∧ (akeys (learn wEcho agent0 "T" none false).agent.knownTasks).count "T" = 1 :=
  learn_success_api_known wEcho agent0 "T" none false (by decide) (by decide)

/-- C2 counterexample: `learn` with explicit module `M` fails while
fetching action `bar` (module `M` provides only `foo`), yet a
partially-populated Actor — carrying `foo` but not `bar` — is
observable on the agent under the task's name after the failed call,
because the source attaches the fresh Actor before the attach loop. -/
theorem learn_partial_actor_counterexample :
    (learn wMismatch agent0 "T" (some "M") false).err = some (.missingAttrError "bar")
    ∧ alookup (learn wMismatch agent0 "T" (some "M") false).agent.attached "T"
        = some (.actor ⟨0, [("foo", cFoo)]⟩)
    ∧ alookup agent0.attached "T" = none := by
  decide

/-- C2 (amended): a failed `learn` never records the task in
`known_tasks`, and every part of the agent other than the attribute
under the task's name is unchanged; that attribute is either also
unchanged (failures during module resolution or loading) or holds a
freshly created, possibly partially-populated Actor (failures while
fetching action callables, whose Actor was attached before the
loop). -/
theorem learn_failure_isolation (w : World) (a : AgentState) (task : String)
    (marg : Option String) (f : Bool) (e : Err)
    (hfail : (learn w a task marg f).err = some e) :
    (learn w a task marg f).agent.knownTasks = a.knownTasks
    ∧ (learn w a task marg f).agent.memorizedTasks = a.memorizedTasks
    ∧ (learn w a task marg f).agent.allowServices = a.allowServices
    ∧ (learn w a task marg f).agent.allowExecutors = a.allowExecutors
    ∧ (learn w a task marg f).agent.name = a.name
    ∧ (learn w a task marg f).agent.subagents = a.subagents
    ∧ (∀ t', t' ≠ task →
        alookup (learn w a task marg f).agent.attached t' = alookup a.attached t')
    ∧ (alookup (learn w a task marg f).agent.attached task = alookup a.attached task
       ∨ ∃ ac : Actor, alookup (learn w a task marg f).agent.attached task = some (.actor ac)
           ∧ ac.typeId = w.nextTypeId) := by
  cases hres : resolveModule w.hub task marg with
  | error e0 =>
    rw [learn_resolve_err _ _ _ _ _ _ hres]
    exact ⟨rfl, rfl, rfl, rfl, rfl, rfl, fun t' _ => rfl, Or.inl rfl⟩
  | ok mn =>
    cases hc : w.callLoadModule mn f a.allowServices a.allowExecutors with
    | mk e1 w1 =>
      cases e1 with
      | some e0 =>
        rw [learn_load_err _ _ _ _ _ _ _ _ hres hc]
        exact ⟨rfl, rfl, rfl, rfl, rfl, rfl, fun t' _ => rfl, Or.inl rfl⟩
      | none =>
        rw [learn_load_ok _ _ _ _ _ _ _ hres hc] at hfail ⊢
        have hnid : w1.nextTypeId = w.nextTypeId := by
          have hh := callLoadModule_nextTypeId w mn f a.allowServices a.allowExecutors
          rw [hc] at hh
          exact hh
        obtain ⟨h1, h2, h3, h4, h5, h6, h7, ac, hac, hid⟩ :=
          learnBind_err_spec w1 a task mn e hfail
        exact ⟨h1, h2, h3, h4, h5, h6, h7, Or.inr ⟨ac, hac, hnid ▸ hid⟩⟩

/-- C2 witness: the concrete fetch-failure scenario, in which the
failed `learn` leaves the known tasks untouched. -/
theorem learn_failure_isolation_witness :
    (learn wMismatch agent0 "T" (some "M") false).agent.knownTasks = agent0.knownTasks
    ∧ (learn wMismatch agent0 "T" (some "M") false).agent.memorizedTasks
        = agent0.memorizedTasks
    ∧ (learn wMismatch agent0 "T" (some "M") false).agent.allowServices = agent0.allowServices
    ∧ (learn wMismatch agent0 "T" (some "M") false).agent.allowExecutors
        = agent0.allowExecutors
    ∧ (learn wMismatch agent0 "T" (some "M") false).agent.name = agent0.name
    ∧ (learn wMismatch agent0 "T" (some "M") false).agent.subagents = agent0.subagents
    ∧ (∀ t', t' ≠ "T" →
        alookup (learn wMismatch agent0 "T" (some "M") false).agent.attached t'
          = alookup agent0.attached t')
    ∧ (alookup (learn wMismatch agent0 "T" (some "M") false).agent.attached "T"
          = alookup agent0.attached "T"
       ∨ ∃ ac : Actor,
           alookup (learn wMismatch agent0 "T" (some "M") false).agent.attached "T"
             = some (.actor ac)
           ∧ ac.typeId = wMismatch.nextTypeId) :=
  learn_failure_isolation wMismatch agent0 "T" (some "M") false (.missingAttrError "bar")
    (by decide)

/-- C6 counterexample: the source decides the attachment level from
the fetched callable's own `__name__`, not from the action name. In
`wAlias` the task's single action `reply` (no double underscore)
resolves to a callable named `__call__`, and ends up attached at the
Actor's type level (the fresh class's table) instead of the instance
level the claim predicts. -/
theorem learn_override_defname_counterexample :
    (learn wAlias agent0 "T" none false).err = none
    ∧ hasDoubleUnderscore "reply" = false
    ∧ alookup (learn wAlias agent0 "T" none false).agent.attached "T"
        = some (.actor ⟨0, []⟩)
    ∧ nlookup (learn wAlias agent0 "T" none false).world.typeTable 0
        = some [("reply", cCall)] := by
  decide

/-- C6 (amended): during a successful `learn`, each action's fetched
callable is attached at the fresh Actor type's level when and only
when the callable's own definition name (`__name__`) contains the
double-underscore delimiter, and at the Actor instance level
otherwise (`typeSel` and `instSel` select exactly these); the Actor
type is freshly allocated for this one (agent, task) binding, every
previously existing type's attribute table is untouched, and every
other attribute of the agent is untouched. -/
theorem learn_attach_levels (w : World) (a : AgentState) (task : String)
    (marg : Option String) (f : Bool) (api : List String)
    (hok : (learn w a task marg f).err = none)
    (hapi : alookup w.hub.tasks task = some api)
    (hnd : api.Nodup)
    (htt : ∀ p ∈ w.typeTable, p.1 < w.nextTypeId) :
    ∃ mn : String, ∃ ac : Actor,
      resolveModule w.hub task marg = .ok mn
      ∧ alookup (learn w a task marg f).agent.attached task = some (.actor ac)
      ∧ ac.typeId = w.nextTypeId
      ∧ nlookup (learn w a task marg f).world.typeTable ac.typeId
          = some (typeSel (learn w a task marg f).world.mm mn api)
      ∧ ac.instAttrs = instSel (learn w a task marg f).world.mm mn api
      ∧ (∀ tid, tid ≠ w.nextTypeId →
          nlookup (learn w a task marg f).world.typeTable tid = nlookup w.typeTable tid)
      ∧ (∀ t', t' ≠ task →
          alookup (learn w a task marg f).agent.attached t' = alookup a.attached t') := by
  cases hres : resolveModule w.hub task marg with
  | error e =>
    rw [learn_resolve_err _ _ _ _ _ _ hres] at hok
    simp at hok
  | ok mn =>
    cases hc : w.callLoadModule mn f a.allowServices a.allowExecutors with
    | mk e1 w1 =>
      cases e1 with
      | some e =>
        rw [learn_load_err _ _ _ _ _ _ _ _ hres hc] at hok
        simp at hok
      | none =>
        have hhub : w1.hub = w.hub := by
          have hh := callLoadModule_hub w mn f a.allowServices a.allowExecutors
          rw [hc] at hh
          exact hh
        have htt1 : w1.typeTable = w.typeTable := by
          have hh := callLoadModule_typeTable w mn f a.allowServices a.allowExecutors
          rw [hc] at hh
          exact hh
        have hnid : w1.nextTypeId = w.nextTypeId := by
          have hh := callLoadModule_nextTypeId w mn f a.allowServices a.allowExecutors
          rw [hc] at hh
          exact hh
        rw [learn_load_ok _ _ _ _ _ _ _ hres hc] at hok ⊢
        have hapi1 : alookup w1.hub.tasks task = some api := by
          rw [hhub]
          exact hapi
        obtain ⟨hloop, heq⟩ := learnBind_ok_spec w1 a task mn api hapi1 hok
        rw [heq]
        have hte : nlookup (freshWorld w1).typeTable
            (Actor.mk w1.nextTypeId []).typeId = some ([] : Dict Callable) := by
          show nlookup (w1.typeTable ++ [(w1.nextTypeId, [])]) w1.nextTypeId = some []
          rw [nlookup_append]
          have hnone : nlookup w1.typeTable w1.nextTypeId = none := by
            rw [htt1, hnid]
            exact nlookup_none_of_lt _ _ htt
          rw [hnone]
          simp [nlookup]
        have hspec := attachLoop_ok_spec mn api (freshWorld w1) ⟨w1.nextTypeId, []⟩ []
          hnd hte (fun m _ => rfl) (fun m _ => rfl) hloop
        have hmm : (attachLoop mn (freshWorld w1) ⟨w1.nextTypeId, []⟩ api).world.mm
            = w1.mm := by
          rw [attachLoop_mm, freshWorld_mm]
        refine ⟨mn, (attachLoop mn (freshWorld w1) ⟨w1.nextTypeId, []⟩ api).actor, rfl,
          ?_, ?_, ?_, ?_, ?_, ?_⟩
        · simp [alookup_ainsert_self]
        · rw [attachLoop_typeId]
          exact hnid
        · rw [attachLoop_typeId]
          show nlookup (attachLoop mn (freshWorld w1) ⟨w1.nextTypeId, []⟩ api).world.typeTable
            w1.nextTypeId = _
          have h1 := hspec.1
          rw [freshWorld_mm] at h1
          rw [h1]
          simp [hmm]
        · have h2 := hspec.2
          rw [freshWorld_mm] at h2
          rw [h2]
          simp [hmm]
        · intro tid htid
          have h1 : tid ≠ (Actor.mk w1.nextTypeId []).typeId := by
            show tid ≠ w1.nextTypeId
            rw [hnid]
            exact htid
          show nlookup (attachLoop mn (freshWorld w1) ⟨w1.nextTypeId, []⟩ api).world.typeTable
            tid = _
          rw [attachLoop_typeTable_ne _ _ _ _ _ h1, freshWorld_typeTable, htt1, nlookup_append]
          cases hl : nlookup w.typeTable tid with
          | some v => simp
          | none =>
            have hne : ¬(w1.nextTypeId = tid) := by
              rw [hnid]
              exact fun hh => htid hh.symm
            simp [nlookup, hne]
        · intro t' ht'
          simp [alookup_ainsert_ne _ _ _ _ ht']

/-- C6 witness: the concrete permission-free success scenario, with a
nodup api and an empty prior class heap. -/
theorem learn_attach_levels_witness :
    ∃ mn : String, ∃ ac : Actor,
      resolveModule wEcho.hub "T" none = .ok mn
      ∧ alookup (learn wEcho agent0 "T" none false).agent.attached "T" = some (.actor ac)
      ∧ ac.typeId = wEcho.nextTypeId
      ∧ nlookup (learn wEcho agent0 "T" none false).world.typeTable ac.typeId
          = some (typeSel (learn wEcho agent0 "T" none false).world.mm mn ["foo"])
      ∧ ac.instAttrs = instSel (learn wEcho agent0 "T" none false).world.mm mn ["foo"]
      ∧ (∀ tid, tid ≠ wEcho.nextTypeId →
          nlookup (learn wEcho agent0 "T" none false).world.typeTable tid
            = nlookup wEcho.typeTable tid)
      ∧ (∀ t', t' ≠ "T" →
          alookup (learn wEcho agent0 "T" none false).agent.attached t'
            = alookup agent0.attached t') :=
  learn_attach_levels wEcho agent0 "T" none false ["foo"] (by decide) (by decide)
    (by decide) (by intro p hp; simp [wEcho] at hp)
